import Mathlib

/-!
Verification model of a generate-and-publish web service consisting of three
Python modules: a response extractor and relevance filter (generator.py), a
repository publisher (handlers.py) and an HTTP intake endpoint (main.py).
Pure logic is embedded as executable Lean functions; the external
collaborators (the language-model provider, the remote file store's HTTP
statuses, the evaluation sink's status) appear as explicit input parameters,
so every code path of the embedded functions corresponds to a run of the
source with those external responses.
-/

set_option maxRecDepth 16384

set_option linter.unusedVariables false

namespace TdsApp

/-- Characters that the embedding has to treat as data even though Lean
source cannot spell them freely: the single quote and the two braces. -/
def squote : Char := Char.ofNat 39

def lbrace : Char := Char.ofNat 123

def rbrace : Char := Char.ofNat 125

/-- Values produced by Python literal evaluation, restricted to the shapes
the program's prompts request and its parsing code inspects: strings,
integers, booleans, None, lists and dicts.  A dict is an insertion-ordered
association list, exactly as a Python dict literal builds it. -/
inductive PyVal where
  | str (s : String)
  | int (n : Int)
  | bool (b : Bool)
  | none
  | list (xs : List PyVal)
  | dict (kvs : List (PyVal × PyVal))

/-- Whitespace skipped between tokens of a literal expression. -/
def isWsChar (c : Char) : Bool := c = ' ' || c = '\t' || c = '\n' || c = '\r'

/-- Python escape-sequence decoding for the common one-character escapes;
an unrecognised escape keeps the backslash, as CPython does. -/
def unescape (c : Char) : List Char :=
  if c = 'n' then ['\n']
  else if c = 't' then ['\t']
  else if c = 'r' then ['\r']
  else if c = '\\' then ['\\']
  else if c = squote then [squote]
  else if c = '"' then ['"']
  else if c = 'b' then [Char.ofNat 8]
  else if c = 'f' then [Char.ofNat 12]
  else if c = 'a' then [Char.ofNat 7]
  else if c = 'v' then [Char.ofNat 11]
  else if c = '0' then [Char.ofNat 0]
  else ['\\', c]

/-- Body of a quoted string literal, after the opening quote q; a raw line
break inside the literal is a syntax error, as in Python. -/
def parseStrBody (q : Char) : List Char → List Char → Option (String × List Char)
  | [], _ => Option.none
  | c :: rest, acc =>
    if c = q then some (String.mk acc.reverse, rest)
    else if c = '\n' ∨ c = '\r' then Option.none
    else if c = '\\' then
      match rest with
      | [] => Option.none
      | e :: rest2 => parseStrBody q rest2 ((unescape e).reverse ++ acc)
    else parseStrBody q rest (c :: acc)

def parseDigitsAux : List Char → Nat → Nat × List Char
  | [], acc => (acc, [])
  | c :: rest, acc =>
    if c.isDigit then parseDigitsAux rest (acc * 10 + (c.toNat - 48)) else (acc, c :: rest)

/-- A nonempty run of decimal digits. -/
def parseNum : List Char → Option (Nat × List Char)
  | c :: rest => if c.isDigit then some (parseDigitsAux rest (c.toNat - 48)) else Option.none
  | [] => Option.none

/-- Strip a fixed keyword from the front of the input. -/
def stripToken : List Char → List Char → Option (List Char)
  | [], s => some s
  | _ :: _, [] => Option.none
  | p :: ps, c :: cs => if c = p then stripToken ps cs else Option.none

/-- Python equality on the hashable atoms that can serve as dict keys; as in
Python, True equals 1 and False equals 0.  Composite keys never compare
equal here because evaluating a dict with such a key fails anyway. -/
def keyEqAtomic : PyVal → PyVal → Bool
  | PyVal.str a, PyVal.str b => a = b
  | PyVal.int a, PyVal.int b => a = b
  | PyVal.bool a, PyVal.bool b => a = b
  | PyVal.int a, PyVal.bool b => a = (if b then (1 : Int) else 0)
  | PyVal.bool a, PyVal.int b => (if a then (1 : Int) else 0) = b
  | PyVal.none, PyVal.none => true
  | _, _ => false

/-- Insertion into an ordered dict, with Python semantics: a repeated key
keeps the position (and key object) of its first occurrence but takes the
new value; a fresh key is appended at the end. -/
def dictInsertEntry : List (PyVal × PyVal) → PyVal → PyVal → List (PyVal × PyVal)
  | [], k, v => [(k, v)]
  | (k0, v0) :: rest, k, v =>
    if keyEqAtomic k0 k then (k0, v) :: rest else (k0, v0) :: dictInsertEntry rest k v

mutual

/-- Recursive-descent evaluator for the Python literal subset described at
PyVal, fuelled to make termination evident; the fuel provided by
literalEvalOutcome always suffices for its input. -/
def parseVal : Nat → List Char → Option (PyVal × List Char)
  | 0, _ => Option.none
  | fuel + 1, s =>
    let s1 := s.dropWhile isWsChar
    match s1 with
    | [] => Option.none
    | c :: rest =>
      if c = squote ∨ c = '"' then
        match parseStrBody c rest [] with
        | some sr => some (PyVal.str sr.1, sr.2)
        | Option.none => Option.none
      else if c = '[' then parseListTail fuel rest []
      else if c = lbrace then parseDictTail fuel rest []
      else if c = '-' then
        match parseNum rest with
        | some nr => some (PyVal.int (-(nr.1 : Int)), nr.2)
        | Option.none => Option.none
      else if c = '+' then
        match parseNum rest with
        | some nr => some (PyVal.int (nr.1 : Int), nr.2)
        | Option.none => Option.none
      else if c.isDigit then
        match parseNum s1 with
        | some nr => some (PyVal.int (nr.1 : Int), nr.2)
        | Option.none => Option.none
      else
        match stripToken ['T', 'r', 'u', 'e'] s1 with
        | some r => some (PyVal.bool true, r)
        | Option.none =>
          match stripToken ['F', 'a', 'l', 's', 'e'] s1 with
          | some r => some (PyVal.bool false, r)
          | Option.none =>
            match stripToken ['N', 'o', 'n', 'e'] s1 with
            | some r => some (PyVal.none, r)
            | Option.none => Option.none

/-- Elements of a list literal, after the opening bracket; allows the
trailing comma Python allows. -/
def parseListTail : Nat → List Char → List PyVal → Option (PyVal × List Char)
  | 0, _, _ => Option.none
  | fuel + 1, s, acc =>
    let s1 := s.dropWhile isWsChar
    match s1 with
    | [] => Option.none
    | c :: _ =>
      if c = ']' then some (PyVal.list acc.reverse, s1.tail)
      else
        match parseVal fuel s1 with
        | Option.none => Option.none
        | some vr =>
          match vr.2.dropWhile isWsChar with
          | ',' :: r2 => parseListTail fuel r2 (vr.1 :: acc)
          | d :: r2 => if d = ']' then some (PyVal.list (vr.1 :: acc).reverse, r2) else Option.none
          | [] => Option.none

/-- Entries of a dict literal, after the opening brace; duplicate keys are
resolved by dictInsertEntry exactly when the entry is inserted. -/
def parseDictTail : Nat → List Char → List (PyVal × PyVal) → Option (PyVal × List Char)
  | 0, _, _ => Option.none
  | fuel + 1, s, acc =>
    let s1 := s.dropWhile isWsChar
    match s1 with
    | [] => Option.none
    | c :: _ =>
      if c = rbrace then some (PyVal.dict acc, s1.tail)
      else
        match parseVal fuel s1 with
        | Option.none => Option.none
        | some kr =>
          match kr.2.dropWhile isWsChar with
          | ':' :: r2 =>
            match parseVal fuel r2 with
            | Option.none => Option.none
            | some vr =>
              match vr.2.dropWhile isWsChar with
              | ',' :: r4 => parseDictTail fuel r4 (dictInsertEntry acc kr.1 vr.1)
              | d :: r4 =>
                if d = rbrace then some (PyVal.dict (dictInsertEntry acc kr.1 vr.1), r4)
                else Option.none
              | [] => Option.none
          | _ => Option.none

end

/-- A value that Python cannot use as a dict key (lists and dicts are
unhashable; constructing such a dict raises TypeError). -/
def isCompositeKey : PyVal → Bool
  | PyVal.list _ => true
  | PyVal.dict _ => true
  | _ => false

/-- Whether the value contains, anywhere, a dict whose key is unhashable;
evaluating such a literal raises TypeError in Python.  Fuelled (structurally
on the nesting depth explored) so that it evaluates by definitional
unfolding; exhausted fuel answers false, which never happens at the one call
site because a value parsed from n characters nests fewer than n levels. -/
def hasBadKeyF : Nat → PyVal → Bool
  | 0, _ => false
  | fuel + 1, v =>
    match v with
    | PyVal.list xs => xs.any (fun x => hasBadKeyF fuel x)
    | PyVal.dict kvs =>
      kvs.any (fun kv => isCompositeKey kv.1 || hasBadKeyF fuel kv.1 || hasBadKeyF fuel kv.2)
    | _ => false

/-- Outcome of ast.literal_eval as the program observes it: a value, a
ValueError or SyntaxError (the two exception classes the callers catch), or
a TypeError from an unhashable dict key (which the callers do not catch). -/
inductive EvalOut where
  | ok (v : PyVal)
  | err
  | typeErr

/-- Model of ast.literal_eval on the literal subset of PyVal: parse the
whole input (trailing junk is a syntax error), then fail with TypeError if
some dict key is unhashable. -/
def literalEvalOutcome (s : String) : EvalOut :=
  let cs := s.toList
  match parseVal (2 * cs.length + 8) cs with
  | Option.none => EvalOut.err
  | some vr =>
    if (vr.2.dropWhile isWsChar).isEmpty then
      if hasBadKeyF (cs.length + 2) vr.1 then EvalOut.typeErr else EvalOut.ok vr.1
    else EvalOut.err

/-- The span matched by the regular expression a brace, any characters
(DOTALL), a brace, greedily, in _execute_llm_call: it runs from the first
opening brace of the text to the last closing brace, and exists exactly
when some closing brace occurs after the first opening brace. -/
def greedySpan (cs : List Char) : Option (List Char) :=
  match cs.findIdx? (fun c => c = lbrace), (cs.reverse.findIdx? (fun c => c = rbrace)).map (fun k => cs.length - 1 - k) with
  | some i, some j => if i < j then some ((cs.drop i).take (j - i + 1)) else Option.none
  | _, _ => Option.none

/-- The fixed prefix of the error.txt fallback artifact built at the
parse-failure branch of _execute_llm_call. -/
def parseFailureText : String := "Failed to parse LLM response.\n\nRaw Content:\n"

/-- The text of the TypeError CPython raises while evaluating a dict literal
with an unhashable key; the quoted offending type name is elided since
nothing in the program inspects it. -/
def unhashableTypeMsg : String := "unhashable type"

/-- The minimal viewable document the provider-exception branch of
_execute_llm_call wraps the exception text in. -/
def htmlErrorDoc (e : String) : String :=
  "<html><body><h1>Failed to generate app via LLM</h1><pre>" ++ e ++ "</pre></body></html>"

/-- The parsing step of _execute_llm_call, applied to the raw model text:
find the greedy brace span; with no span, fall back to the raw text under
index.html; evaluate the span as a literal; a dict is returned as-is; a
non-dict value raises ValueError which, like an evaluation ValueError or
SyntaxError, is caught and degraded to the error.txt artifact embedding the
raw text; a TypeError (unhashable dict key) is not caught by that handler
and lands in the enclosing provider-exception handler, which produces the
error.html artifact from the exception text alone. -/
def extractFiles (content : String) : List (PyVal × PyVal) :=
  match greedySpan content.toList with
  | Option.none => [(PyVal.str "index.html", PyVal.str content)]
  | some sp =>
    match literalEvalOutcome (String.mk sp) with
    | EvalOut.ok (PyVal.dict kvs) => kvs
    | EvalOut.ok _ => [(PyVal.str "error.txt", PyVal.str (parseFailureText ++ content))]
    | EvalOut.err => [(PyVal.str "error.txt", PyVal.str (parseFailureText ++ content))]
    | EvalOut.typeErr => [(PyVal.str "error.html", PyVal.str (htmlErrorDoc unhashableTypeMsg))]

/-- _execute_llm_call as a whole: the provider call either yields the raw
response text or raises, and a raised provider exception is degraded to the
error.html artifact carrying the exception text. -/
def executeLlmCall (providerResult : Except String String) : List (PyVal × PyVal) :=
  match providerResult with
  | Except.ok content => extractFiles content
  | Except.error e => [(PyVal.str "error.html", PyVal.str (htmlErrorDoc e))]

/-- One iteration of the value scan in _llm_filter_relevant_files: a value
counts when it is a string whose literal evaluation yields a list. -/
def valueAsList (v : PyVal) : Option (List PyVal) :=
  match v with
  | PyVal.str s =>
    match literalEvalOutcome s with
    | EvalOut.ok (PyVal.list xs) => some xs
    | _ => Option.none
  | _ => Option.none

/-- Whether literal evaluation of the value raises the TypeError that the
filter's handler for ValueError and SyntaxError does not catch. -/
def valueTypeErrs (v : PyVal) : Bool :=
  match v with
  | PyVal.str s =>
    match literalEvalOutcome s with
    | EvalOut.typeErr => true
    | _ => false
  | _ => false

/-- _llm_filter_relevant_files, after the extractor produced responseDict:
scan the dict values in order; return the first one that literal-evaluates
to a list; values whose evaluation raises ValueError or SyntaxError (which
includes every non-string value) are skipped; a TypeError escapes the
function (modelled as an error); if the scan is exhausted, fall back to the
full input path list. -/
def llmFilterRelevantFiles : List (PyVal × PyVal) → List String → Except String (List PyVal)
  | [], fileList => Except.ok (fileList.map PyVal.str)
  | (_, v) :: rest, fileList =>
    match v with
    | PyVal.str s =>
      match literalEvalOutcome s with
      | EvalOut.ok (PyVal.list xs) => Except.ok xs
      | EvalOut.typeErr => Except.error unhashableTypeMsg
      | _ => llmFilterRelevantFiles rest fileList
    | _ => llmFilterRelevantFiles rest fileList

/-- Whether the value is a Python string, for stating the claims that are
restricted to mappings of strings to strings. -/
def isStrVal : PyVal → Bool
  | PyVal.str _ => true
  | _ => false

/-! ## The repository publisher (handlers.py)

The remote store is a path-to-file map with a counter supplying fresh commit
identifiers; the model-generated file set and the HTTP statuses of the
external calls (repository creation, Pages setup, evaluation notification)
are explicit inputs, since they are responses of external collaborators. -/

/-- UTF-8 encoding of one code point, as str.encode produces it. -/
def utf8EncodeChar (n : Nat) : List Nat :=
  if n < 128 then [n]
  else if n < 2048 then [192 + n / 64, 128 + n % 64]
  else if n < 65536 then [224 + n / 4096, 128 + (n / 64) % 64, 128 + n % 64]
  else [240 + n / 262144, 128 + (n / 4096) % 64, 128 + (n / 64) % 64, 128 + n % 64]

/-- UTF-8 encoding of a string as a byte list, modelling content.encode in
upload_or_update_file. -/
def utf8Encode (s : String) : List Nat :=
  (s.toList.map (fun c => utf8EncodeChar c.toNat)).flatten

/-- Value of one character of the standard base64 alphabet. -/
def b64CharVal (c : Char) : Option Nat :=
  if 'A' ≤ c ∧ c ≤ 'Z' then some (c.toNat - 65)
  else if 'a' ≤ c ∧ c ≤ 'z' then some (c.toNat - 97 + 26)
  else if '0' ≤ c ∧ c ≤ '9' then some (c.toNat - 48 + 52)
  else if c = '+' then some 62
  else if c = '/' then some 63
  else Option.none

/-- Decode a padding-stripped run of six-bit values into bytes; a leftover
of one six-bit value cannot occur in valid base64. -/
def b64Groups : List Nat → Option (List Nat)
  | [] => some []
  | a :: b :: c :: d :: rest =>
    (b64Groups rest).map
      (fun tail => (a * 4 + b / 16) :: ((b % 16) * 16 + c / 4) :: ((c % 4) * 64 + d) :: tail)
  | [a, b] => some [a * 4 + b / 16]
  | [a, b, c] => some [a * 4 + b / 16, (b % 16) * 16 + c / 4]
  | [_] => Option.none

/-- base64.b64decode on a string, in its default non-validating mode:
characters outside the alphabet and the padding sign are discarded, the
remaining length must be a multiple of four, trailing padding is stripped,
and the six-bit groups are reassembled into bytes. -/
def b64decode (s : String) : Option (List Nat) :=
  let cs := s.toList.filter (fun c => (b64CharVal c).isSome ∨ c = '=')
  if cs.length % 4 ≠ 0 then Option.none
  else
    match (cs.reverse.dropWhile (fun c => c = '=')).reverse.mapM b64CharVal with
    | Option.none => Option.none
    | some vals => b64Groups vals

/-- An attachment as supplied in the task payload: a target name and a
base64 data URI. -/
structure Attachment where
  name : String
  url : String

/-- str.split on the comma separator, keeping empty parts, as Python does. -/
def splitCommaAux : List Char → List Char → List String
  | [], acc => [String.mk acc.reverse]
  | c :: rest, acc =>
    if c = ',' then String.mk acc.reverse :: splitCommaAux rest []
    else splitCommaAux rest (c :: acc)

def splitComma (s : String) : List String := splitCommaAux s.toList []

/-- The decoding step applied to each attachment by both round handlers:
split the data URI at commas, take the part after the first comma, decode
it as base64.  A URI with no comma or undecodable data raises in Python;
both are the failure case here. -/
def decodeAttachment (a : Attachment) : Option (List Nat) :=
  match (splitComma a.url).get? 1 with
  | some dataPart => b64decode dataPart
  | Option.none => Option.none

/-- File content as Python hands it to upload_or_update_file: generated
contents are text, decoded attachments are raw bytes. -/
inductive Content where
  | text (s : String)
  | bytes (b : List Nat)

/-- The byte encoding upload_or_update_file applies before the write. -/
def Content.toBytes : Content → List Nat
  | Content.text s => utf8Encode s
  | Content.bytes b => b

/-- A file at rest in the remote store: its current blob identifier and its
content bytes. -/
structure StoredFile where
  sha : Nat
  content : List Nat

/-- The remote store: an association list from path to stored file, plus a
counter from which the store mints fresh commit identifiers. -/
structure Store where
  files : List (String × StoredFile)
  nextSha : Nat

/-- Path lookup in the remote store. -/
def storeLookup : List (String × StoredFile) → String → Option StoredFile
  | [], _ => Option.none
  | (q, g) :: rest, p => if q = p then some g else storeLookup rest p

/-- Create-or-update at a path in the remote store, leaving every other
path untouched. -/
def storeInsert : List (String × StoredFile) → String → StoredFile → List (String × StoredFile)
  | [], p, f => [(p, f)]
  | (q, g) :: rest, p, f =>
    if q = p then (q, f) :: rest else (q, g) :: storeInsert rest p f

/-- upload_or_update_file: read the blob identifier of any existing object
at the path (the optimistic-concurrency token the PUT then echoes back),
encode the content as bytes, and write; the store records the bytes under a
fresh identifier, which is also this operation's commit result.  In this
sequential model the token read immediately before the write is never
stale, so the write always succeeds. -/
def uploadOrUpdateFile (store : Store) (path : String) (content : Content) : Store × Nat :=
  let _existingFileSha := (storeLookup store.files path).map StoredFile.sha
  let commitSha := store.nextSha
  ({ files := storeInsert store.files path { sha := commitSha, content := content.toBytes },
     nextSha := store.nextSha + 1 }, commitSha)

/-- The per-file write loop shared by both round handlers: write each entry
of the file set in order, remembering the commit identifier of the last
write; None when the set was empty and no write happened. -/
def publishAll : List (String × Content) → Store → Store × Option Nat
  | [], store => (store, Option.none)
  | (p, c) :: rest, store =>
    let step := uploadOrUpdateFile store p c
    let res2 := publishAll rest step.1
    (res2.1, match res2.2 with
             | some s => some s
             | Option.none => some step.2)

/-- Python dict assignment on the generated file set: replace the value in
place when the key exists, append otherwise. -/
def dictUpsert : List (String × Content) → String → Content → List (String × Content)
  | [], p, c => [(p, c)]
  | (q, d) :: rest, p, c =>
    if q = p then (q, c) :: rest else (q, d) :: dictUpsert rest p c

/-- The attachment overlay loop shared by both round handlers: decode each
attachment and assign its bytes into the generated set under the attachment
name, in attachment order, so an attachment always overwrites a generated
file at the same path and a later attachment overwrites an earlier
same-named one.  A failing decode raises, aborting the round before any
write. -/
def overlayAttachments : List (String × Content) → List Attachment → Except String (List (String × Content))
  | files, [] => Except.ok files
  | files, att :: rest =>
    match decodeAttachment att with
    | some bs => overlayAttachments (dictUpsert files att.name (Content.bytes bs)) rest
    | Option.none => Except.error ("Invalid attachment data for " ++ att.name)

/-- The note printed when the GitHub Pages call does not return a success
status; printing is the only consequence of that branch. -/
def pagesWarnNote (pagesStatus : Nat) : String :=
  if pagesStatus = 201 ∨ pagesStatus = 204 then ""
  else "Warning: GitHub Pages setup returned non-success status"

/-- _handle_round_1: create the repository (a non-201 creation status
raises), take the generated file set (the generator's output is an input
here, the model being external), overlay the attachments, write every
resulting file, then request Pages hosting — whose status only yields a
printed warning — and return the last write's commit identifier. -/
def handleRound1 (createStatus pagesStatus : Nat) (genFiles : List (String × Content))
    (atts : List Attachment) (store : Store) : Except String (Store × Option Nat) :=
  if createStatus ≠ 201 then Except.error "Failed to create repo"
  else
    match overlayAttachments genFiles atts with
    | Except.error e => Except.error e
    | Except.ok files =>
      let published := publishAll files store
      let _warn := pagesWarnNote pagesStatus
      Except.ok published

/-- _handle_round_2: the remote snapshot is the store's current file list;
an empty snapshot raises before the generator (and hence any model call) is
consulted; otherwise overlay the attachments onto the generated update set
and write exactly its entries. -/
def handleRound2 (genFiles : List (String × Content)) (atts : List Attachment)
    (store : Store) : Except String (Store × Option Nat) :=
  if store.files.isEmpty then Except.error "Could not retrieve existing files to modify."
  else
    match overlayAttachments genFiles atts with
    | Except.error e => Except.error e
    | Except.ok files => Except.ok (publishAll files store)

/-- What one invocation of handle_task leaves behind: the remote store
(partial writes are not rolled back), the outcome surfaced to the caller,
and whether the evaluation sink was sent the completion notification. -/
structure TaskResult where
  store : Store
  outcome : Except String Nat
  notified : Bool

/-- handle_task: dispatch on the round number (1 creates, greater than 1
modifies, anything else raises); a missing commit identifier raises before
the evaluation sink is contacted; otherwise the sink is notified and a
non-200 response from it raises after the fact. -/
def handleTask (round : Int) (createStatus pagesStatus evalStatus : Nat)
    (genFiles : List (String × Content)) (atts : List Attachment) (store : Store) : TaskResult :=
  let roundResult :=
    if round = 1 then handleRound1 createStatus pagesStatus genFiles atts store
    else if round > 1 then handleRound2 genFiles atts store
    else Except.error "Unknown round"
  match roundResult with
  | Except.error e => { store := store, outcome := Except.error e, notified := false }
  | Except.ok (store2, shaOpt) =>
    match shaOpt with
    | Option.none =>
      { store := store2, outcome := Except.error "Failed to retrieve a valid commit SHA.",
        notified := false }
    | some sha =>
      if evalStatus ≠ 200 then
        { store := store2, outcome := Except.error "Evaluation notification failed",
          notified := true }
      else { store := store2, outcome := Except.ok sha, notified := true }

/-! ## The intake endpoint (main.py) -/

/-- The HTTP response of the intake endpoint, as status and detail text. -/
structure HttpResponse where
  status : Nat
  detail : String
deriving DecidableEq

/-- receive_task: reject a wrong secret with 403; otherwise run handle_task
on a worker thread and await it, answering 200 with the acknowledgement
text only once it returned, and mapping any exception it raised to a 500
carrying the exception text.  The handler's result is an input because the
work it does is modelled by handleTask. -/
def receiveTask (secret expectedSecret : String) (handleResult : Except String Unit) : HttpResponse :=
  if secret ≠ expectedSecret then { status := 403, detail := "Invalid secret" }
  else
    match handleResult with
    | Except.ok _ => { status := 200, detail := "Task received and being processed." }
    | Except.error e => { status := 500, detail := e }

/-! ## Auxiliary notions used to state and prove the claims -/

/-- Path lookup in a generated file set. -/
def contentLookup : List (String × Content) → String → Option Content
  | [], _ => Option.none
  | (q, d) :: rest, p => if q = p then some d else contentLookup rest p

/-- The attachment whose decoded bytes the overlay loop leaves at path p:
the last attachment in payload order bearing that name. -/
def attachmentOverride : List Attachment → String → Option Attachment
  | [], _ => Option.none
  | a :: rest, p =>
    match attachmentOverride rest p with
    | some b => some b
    | Option.none => if a.name = p then some a else Option.none

/-! ## Lemmas about the store and the publish loop -/

theorem storeLookup_storeInsert_self (fs : List (String × StoredFile)) (p : String)
    (f : StoredFile) : storeLookup (storeInsert fs p f) p = some f := by
  induction fs with
  | nil => simp [storeInsert, storeLookup]
  | cons hd tl ih =>
    obtain ⟨q, g⟩ := hd
    by_cases h : q = p
    · subst h
      simp [storeInsert, storeLookup]
    · simp [storeInsert, storeLookup, h, ih]

theorem storeLookup_storeInsert_other (fs : List (String × StoredFile)) (p r : String)
    (f : StoredFile) (hne : r ≠ p) : storeLookup (storeInsert fs p f) r = storeLookup fs r := by
  induction fs with
  | nil => simp [storeInsert, storeLookup, Ne.symm hne]
  | cons hd tl ih =>
    obtain ⟨q, g⟩ := hd
    by_cases h : q = p
    · subst h
      simp [storeInsert, storeLookup, Ne.symm hne]
    · simp [storeInsert, storeLookup, h, ih]

/-- Paths not named by the file set keep their stored entry across the
whole publish loop. -/
theorem publishAll_frame (files : List (String × Content)) (st : Store) (p : String)
    (h : p ∉ files.map Prod.fst) :
    storeLookup (publishAll files st).1.files p = storeLookup st.files p := by
  induction files generalizing st with
  | nil => rfl
  | cons hd tl ih =>
    obtain ⟨q, c⟩ := hd
    simp only [List.map_cons, List.mem_cons, not_or] at h
    have step : storeLookup (uploadOrUpdateFile st q c).1.files p = storeLookup st.files p :=
      storeLookup_storeInsert_other st.files q p _ h.1
    calc storeLookup (publishAll ((q, c) :: tl) st).1.files p
        = storeLookup (publishAll tl (uploadOrUpdateFile st q c).1).1.files p := rfl
      _ = storeLookup (uploadOrUpdateFile st q c).1.files p := ih _ h.2
      _ = storeLookup st.files p := step

/-- A path carried by the file set ends up stored with exactly the byte
encoding of its content, when the set names the path once (the file set is
a Python dict, so its keys are unique). -/
theorem publishAll_lookup_written (files : List (String × Content)) (st : Store) (p : String)
    (c : Content) (hnd : (files.map Prod.fst).Nodup) (hl : contentLookup files p = some c) :
    ∃ sha, storeLookup (publishAll files st).1.files p =
      some { sha := sha, content := c.toBytes } := by
  induction files generalizing st with
  | nil => exact absurd hl (by simp [contentLookup])
  | cons hd tl ih =>
    obtain ⟨q, d⟩ := hd
    simp only [List.map_cons, List.nodup_cons] at hnd
    by_cases h : q = p
    · subst h
      have hc : d = c := by
        simpa [contentLookup] using hl
      subst hc
      refine ⟨st.nextSha, ?_⟩
      calc storeLookup (publishAll ((q, d) :: tl) st).1.files q
          = storeLookup (publishAll tl (uploadOrUpdateFile st q d).1).1.files q := rfl
        _ = storeLookup (uploadOrUpdateFile st q d).1.files q := publishAll_frame _ _ _ hnd.1
        _ = some { sha := st.nextSha, content := d.toBytes } :=
            storeLookup_storeInsert_self st.files q _
    · have hl' : contentLookup tl p = some c := by
        simpa [contentLookup, h] using hl
      exact ih (uploadOrUpdateFile st q d).1 hnd.2 hl'

/-! ## Lemmas about the attachment overlay -/

theorem contentLookup_dictUpsert_self (fs : List (String × Content)) (p : String) (c : Content) :
    contentLookup (dictUpsert fs p c) p = some c := by
  induction fs with
  | nil => simp [dictUpsert, contentLookup]
  | cons hd tl ih =>
    obtain ⟨q, d⟩ := hd
    by_cases h : q = p
    · subst h
      simp [dictUpsert, contentLookup]
    · simp [dictUpsert, contentLookup, h, ih]

theorem contentLookup_dictUpsert_other (fs : List (String × Content)) (p r : String)
    (c : Content) (hne : r ≠ p) :
    contentLookup (dictUpsert fs p c) r = contentLookup fs r := by
  induction fs with
  | nil => simp [dictUpsert, contentLookup, Ne.symm hne]
  | cons hd tl ih =>
    obtain ⟨q, d⟩ := hd
    by_cases h : q = p
    · subst h
      simp [dictUpsert, contentLookup, Ne.symm hne]
    · simp [dictUpsert, contentLookup, h, ih]

theorem mem_keys_dictUpsert (fs : List (String × Content)) (p q : String) (c : Content) :
    q ∈ (dictUpsert fs p c).map Prod.fst ↔ q ∈ fs.map Prod.fst ∨ q = p := by
  induction fs with
  | nil => simp [dictUpsert]
  | cons hd tl ih =>
    obtain ⟨r, d⟩ := hd
    by_cases h : r = p
    · subst h
      simp only [dictUpsert, if_true, eq_self_iff_true, List.map_cons, List.mem_cons]
      tauto
    · simp only [dictUpsert, if_neg h, List.map_cons, List.mem_cons, ih]
      tauto

theorem nodup_keys_dictUpsert (fs : List (String × Content)) (p : String) (c : Content)
    (hnd : (fs.map Prod.fst).Nodup) : ((dictUpsert fs p c).map Prod.fst).Nodup := by
  induction fs with
  | nil => simp [dictUpsert]
  | cons hd tl ih =>
    obtain ⟨r, d⟩ := hd
    simp only [List.map_cons, List.nodup_cons] at hnd
    by_cases h : r = p
    · subst h
      have : dictUpsert ((r, d) :: tl) r c = (r, c) :: tl := by
        simp [dictUpsert]
      rw [this]
      simp only [List.map_cons, List.nodup_cons]
      exact ⟨hnd.1, hnd.2⟩
    · simp only [dictUpsert, if_neg h, List.map_cons, List.nodup_cons]
      refine ⟨?_, ih hnd.2⟩
      rw [mem_keys_dictUpsert]
      push_neg
      exact ⟨hnd.1, h⟩

/-- The overlay loop preserves uniqueness of the file-set keys. -/
theorem overlayAttachments_ok_nodup (atts : List Attachment) (fs aug : List (String × Content))
    (hnd : (fs.map Prod.fst).Nodup) (hov : overlayAttachments fs atts = Except.ok aug) :
    (aug.map Prod.fst).Nodup := by
  induction atts generalizing fs with
  | nil =>
    cases hov
    exact hnd
  | cons att rest ih =>
    simp only [overlayAttachments] at hov
    cases hd : decodeAttachment att with
    | none => rw [hd] at hov; cases hov
    | some bs =>
      rw [hd] at hov
      exact ih _ (nodup_keys_dictUpsert _ _ _ hnd) hov

theorem attachmentOverride_eq_none (atts : List Attachment) (p : String)
    (h : attachmentOverride atts p = Option.none) : ∀ a ∈ atts, a.name ≠ p := by
  induction atts with
  | nil => simp
  | cons att rest ih =>
    simp only [attachmentOverride] at h
    cases h0 : attachmentOverride rest p with
    | some b => rw [h0] at h; cases h
    | none =>
      rw [h0] at h
      by_cases hn : att.name = p
      · rw [if_pos hn] at h; cases h
      · intro a ha
        rcases List.mem_cons.mp ha with rfl | ha'
        · exact hn
        · exact ih h0 a ha'

/-- Paths named by no attachment keep their file-set entry across the
overlay loop. -/
theorem overlayAttachments_ok_frame (atts : List Attachment) (fs aug : List (String × Content))
    (p : String) (hno : ∀ a ∈ atts, a.name ≠ p)
    (hov : overlayAttachments fs atts = Except.ok aug) :
    contentLookup aug p = contentLookup fs p := by
  induction atts generalizing fs with
  | nil =>
    cases hov
    rfl
  | cons att rest ih =>
    simp only [overlayAttachments] at hov
    cases hd : decodeAttachment att with
    | none => rw [hd] at hov; cases hov
    | some bs =>
      rw [hd] at hov
      have hne : att.name ≠ p := hno att (List.mem_cons_self _ _)
      calc contentLookup aug p
          = contentLookup (dictUpsert fs att.name (Content.bytes bs)) p :=
            ih _ (fun a ha => hno a (List.mem_cons_of_mem _ ha)) hov
        _ = contentLookup fs p := contentLookup_dictUpsert_other _ _ _ _ (Ne.symm hne)

/-- After the overlay loop, the entry at a path named by some attachment is
the decoded bytes of the last attachment bearing that name. -/
theorem overlayAttachments_ok_override (atts : List Attachment) (fs aug : List (String × Content))
    (p : String) (a : Attachment) (bs : List Nat)
    (hoa : attachmentOverride atts p = some a) (hdec : decodeAttachment a = some bs)
    (hov : overlayAttachments fs atts = Except.ok aug) :
    contentLookup aug p = some (Content.bytes bs) := by
  induction atts generalizing fs with
  | nil => cases hoa
  | cons att rest ih =>
    simp only [overlayAttachments] at hov
    cases hd : decodeAttachment att with
    | none => rw [hd] at hov; cases hov
    | some bs0 =>
      rw [hd] at hov
      simp only [attachmentOverride] at hoa
      cases h0 : attachmentOverride rest p with
      | some b =>
        rw [h0] at hoa
        cases hoa
        exact ih _ h0 hov
      | none =>
        rw [h0] at hoa
        by_cases hn : att.name = p
        · rw [if_pos hn] at hoa
          have haeq : att = a := Option.some.inj hoa
          rw [← haeq, hd] at hdec
          have hbs : bs0 = bs := Option.some.inj hdec
          subst hbs
          calc contentLookup aug p
              = contentLookup (dictUpsert fs att.name (Content.bytes bs0)) p :=
                overlayAttachments_ok_frame rest _ _ p (attachmentOverride_eq_none rest p h0) hov
            _ = some (Content.bytes bs0) := by
                rw [hn]
                exact contentLookup_dictUpsert_self _ _ _
        · rw [if_neg hn] at hoa
          cases hoa

/-! ## Lemma connecting handle_task to the publish loop -/

/-- Under the conditions that let a round reach its write loop (round 1
with a successful repository creation, or a later round with a nonempty
snapshot) and a successfully overlaid file set, the store handle_task
leaves behind is exactly the publish loop's result, whatever the Pages and
evaluation statuses and whatever happens after the writes. -/
theorem handleTask_store_of_ok (round : Int) (cs ps es : Nat)
    (gf : List (String × Content)) (atts : List Attachment) (st : Store)
    (aug : List (String × Content))
    (hr : (round = 1 ∧ cs = 201) ∨ (1 < round ∧ st.files ≠ []))
    (hov : overlayAttachments gf atts = Except.ok aug) :
    (handleTask round cs ps es gf atts st).store = (publishAll aug st).1 := by
  rcases hr with ⟨hr1, hcs⟩ | ⟨hgt, hne⟩
  · subst hr1
    subst hcs
    cases hpub : publishAll aug st with
    | mk st2 shaOpt =>
      simp only [handleTask, handleRound1, if_pos rfl, ne_eq, not_true_eq_false, if_neg,
        reduceIte, hov, hpub]
      cases shaOpt with
      | none => rfl
      | some sha =>
        by_cases he : es = 200
        · simp [he]
        · simp [he]
  · have hne1 : ¬ round = 1 := by omega
    have hempty : st.files.isEmpty = false := by
      cases hf : st.files with
      | nil => exact absurd hf hne
      | cons a l => rfl
    cases hpub : publishAll aug st with
    | mk st2 shaOpt =>
      simp only [handleTask, handleRound2, if_neg hne1, if_pos hgt, hempty, hov, hpub]
      cases shaOpt with
      | none => rfl
      | some sha =>
        by_cases he : es = 200
        · simp [he]
        · simp [he]

/-- Whether a value is a Python dict, for stating the extractor claims. -/
def isDictVal : PyVal → Bool
  | PyVal.dict _ => true
  | _ => false

/-! ## The claims -/

/-- Claim C1: whenever the raw model text has a greedy brace span (first
opening brace to last closing brace) that literal-evaluates to a mapping of
strings to strings, the extractor returns exactly that mapping. -/
theorem claim1_extractor_returns_wellformed_mapping (content : String)
    (kvs : List (PyVal × PyVal))
    (h1 : (greedySpan content.toList).map (fun sp => literalEvalOutcome (String.mk sp)) =
      some (EvalOut.ok (PyVal.dict kvs)))
    (h2 : ∀ kv ∈ kvs, isStrVal kv.1 = true ∧ isStrVal kv.2 = true) :
    extractFiles content = kvs := by
  cases hg : greedySpan content.toList with
  | none =>
    rw [hg] at h1
    cases h1
  | some sp =>
    rw [hg] at h1
    have he : literalEvalOutcome (String.mk sp) = EvalOut.ok (PyVal.dict kvs) :=
      Option.some.inj h1
    have hg2 : greedySpan content.data = some sp := hg
    simp [extractFiles, hg2, he]

/-- Witness for C1: a response with prose around a two-file dict. -/
theorem claim1_witness :
    extractFiles
        "Sure! Here are the files: \x7b\"index.html\": \"<h1>ok</h1>\", \"style.css\": \"body\"\x7d Enjoy!" =
      [(PyVal.str "index.html", PyVal.str "<h1>ok</h1>"), (PyVal.str "style.css", PyVal.str "body")] :=
  claim1_extractor_returns_wellformed_mapping _ _ rfl (by decide)

/-- Claim C2: on rounds after the first, a path not named by the
attachment-augmented generated set keeps its exact stored entry across the
whole round, whatever else the round does. -/
theorem claim2_round2_untouched_paths (round : Int) (cs ps es : Nat)
    (gf : List (String × Content)) (atts : List Attachment) (st : Store)
    (aug : List (String × Content)) (p : String)
    (hr : 1 < round) (hne : st.files ≠ [])
    (hov : overlayAttachments gf atts = Except.ok aug)
    (hp : p ∉ aug.map Prod.fst) :
    storeLookup (handleTask round cs ps es gf atts st).store.files p = storeLookup st.files p := by
  rw [handleTask_store_of_ok round cs ps es gf atts st aug (Or.inr ⟨hr, hne⟩) hov]
  exact publishAll_frame aug st p hp

/-- Witness for C2: a round-2 update writing only style.css leaves
index.html exactly as it was. -/
theorem claim2_witness :
    storeLookup (handleTask 2 201 201 200 [("style.css", Content.text "body")] []
        { files := [("index.html", { sha := 1, content := [10] }),
                    ("style.css", { sha := 2, content := [20] })], nextSha := 3 }).store.files
      "index.html" =
    storeLookup [("index.html", { sha := 1, content := [10] }),
                 ("style.css", { sha := 2, content := [20] })] "index.html" :=
  claim2_round2_untouched_paths 2 201 201 200 _ _ _ _ "index.html" (by decide)
    (List.cons_ne_nil _ _) rfl (by decide)

/-- Claim C3: on any round that reaches its write loop, a path named by an
attachment ends up in the store holding the decoded bytes of the last
attachment bearing that name, never the generated content. -/
theorem claim3_attachment_precedence (round : Int) (cs ps es : Nat)
    (gf : List (String × Content)) (atts : List Attachment) (st : Store)
    (aug : List (String × Content)) (p : String) (a : Attachment) (bs : List Nat)
    (hr : (round = 1 ∧ cs = 201) ∨ (1 < round ∧ st.files ≠ []))
    (hnd : (gf.map Prod.fst).Nodup)
    (hoa : attachmentOverride atts p = some a)
    (hdec : decodeAttachment a = some bs)
    (hov : overlayAttachments gf atts = Except.ok aug) :
    ∃ sha, storeLookup (handleTask round cs ps es gf atts st).store.files p =
      some { sha := sha, content := bs } := by
  rw [handleTask_store_of_ok round cs ps es gf atts st aug hr hov]
  have hlook : contentLookup aug p = some (Content.bytes bs) :=
    overlayAttachments_ok_override atts gf aug p a bs hoa hdec hov
  have hnd2 := overlayAttachments_ok_nodup atts gf aug hnd hov
  have hw := publishAll_lookup_written aug st p (Content.bytes bs) hnd2 hlook
  simpa [Content.toBytes] using hw

/-- Witness for C3: a generated logo.png is overridden by the attachment of
the same name, and the store ends up with the decoded attachment bytes. -/
theorem claim3_witness :
    ∃ sha, storeLookup (handleTask 1 201 201 200 [("logo.png", Content.text "generated")]
        [{ name := "logo.png", url := "data:image/png;base64,QUJD" }]
        { files := [], nextSha := 1 }).store.files "logo.png" =
      some { sha := sha, content := [65, 66, 67] } :=
  claim3_attachment_precedence 1 201 201 200 _ _ _
    [("logo.png", Content.bytes [65, 66, 67])] "logo.png"
    { name := "logo.png", url := "data:image/png;base64,QUJD" } [65, 66, 67]
    (Or.inl ⟨rfl, rfl⟩) (by decide) rfl rfl rfl

/-- Counterexample to C4 as stated: a raw output whose brace span is the
empty dict literal makes the extractor return the empty mapping, so
downstream publishing does receive an empty file set. -/
theorem claim4_counterexample : executeLlmCall (Except.ok "\x7b\x7d") = [] := rfl

/-- Claim C4 (amended): the extractor's mapping is non-empty except in the
single degenerate case in which the provider call succeeded and the greedy
brace span literal-evaluates to the empty mapping. -/
theorem claim4_nonempty_unless_empty_literal (res : Except String String)
    (h : executeLlmCall res = []) :
    ∃ content, res = Except.ok content ∧
      (greedySpan content.toList).map (fun sp => literalEvalOutcome (String.mk sp)) =
        some (EvalOut.ok (PyVal.dict [])) := by
  cases res with
  | error e => exact absurd h (by simp [executeLlmCall])
  | ok content =>
    refine ⟨content, rfl, ?_⟩
    cases hg : greedySpan content.toList with
    | none =>
      simp only [executeLlmCall, extractFiles, hg] at h
      exact absurd h (by simp)
    | some sp =>
      simp only [executeLlmCall, extractFiles, hg] at h
      cases he : literalEvalOutcome (String.mk sp) with
      | ok v =>
        rw [he] at h
        cases v <;> simp at h
        subst h
        simp [he]
      | err =>
        rw [he] at h
        simp at h
      | typeErr =>
        rw [he] at h
        simp at h

/-- Witness for the amended C4, at the counterexample input. -/
theorem claim4_witness :
    ∃ content, (Except.ok "\x7b\x7d" : Except String String) = Except.ok content ∧
      (greedySpan content.toList).map (fun sp => literalEvalOutcome (String.mk sp)) =
        some (EvalOut.ok (PyVal.dict [])) :=
  claim4_nonempty_unless_empty_literal (Except.ok "\x7b\x7d") rfl

/-- Counterexample to C5 as stated: a span whose literal evaluation raises
TypeError (an unhashable dict key) is missed by the handler for ValueError
and SyntaxError; the provider-exception handler catches it instead and its
error.html artifact does not contain the raw model text. -/
theorem claim5_counterexample :
    (greedySpan ("\x7b[\"k\"]: \"v\"\x7d".toList)).map
        (fun sp => literalEvalOutcome (String.mk sp)) = some EvalOut.typeErr ∧
    extractFiles "\x7b[\"k\"]: \"v\"\x7d" =
      [(PyVal.str "error.html", PyVal.str (htmlErrorDoc unhashableTypeMsg))] ∧
    ¬ ("\x7b[\"k\"]: \"v\"\x7d".toList <:+: (htmlErrorDoc unhashableTypeMsg).toList) :=
  ⟨rfl, rfl, by decide⟩

/-- Claim C5 (amended): when the greedy brace span fails literal evaluation
with ValueError or SyntaxError, or evaluates to a non-mapping, the extractor
returns the single-entry error.txt mapping whose value contains the raw
text; a TypeError from an unhashable dict key instead reaches the
provider-exception handler, whose artifact carries only the exception
text. -/
theorem claim5_parse_failure_error_artifact (content : String)
    (h : (greedySpan content.toList).map (fun sp => literalEvalOutcome (String.mk sp)) =
        some EvalOut.err ∨
      ∃ v, (greedySpan content.toList).map (fun sp => literalEvalOutcome (String.mk sp)) =
        some (EvalOut.ok v) ∧ isDictVal v = false) :
    extractFiles content = [(PyVal.str "error.txt", PyVal.str (parseFailureText ++ content))] ∧
    ∃ pre, parseFailureText ++ content = pre ++ content := by
  refine ⟨?_, ⟨parseFailureText, rfl⟩⟩
  rcases h with hout | ⟨v, hout, hdict⟩
  · cases hg : greedySpan content.toList with
    | none =>
      rw [hg] at hout
      cases hout
    | some sp =>
      rw [hg] at hout
      have he : literalEvalOutcome (String.mk sp) = EvalOut.err := Option.some.inj hout
      have hg2 : greedySpan content.data = some sp := hg
      simp [extractFiles, hg2, he]
  · cases hg : greedySpan content.toList with
    | none =>
      rw [hg] at hout
      cases hout
    | some sp =>
      rw [hg] at hout
      have he : literalEvalOutcome (String.mk sp) = EvalOut.ok v := Option.some.inj hout
      have hg2 : greedySpan content.data = some sp := hg
      cases v with
      | dict kvs => simp [isDictVal] at hdict
      | str s => simp [extractFiles, hg2, he]
      | int n => simp [extractFiles, hg2, he]
      | bool b => simp [extractFiles, hg2, he]
      | none => simp [extractFiles, hg2, he]
      | list xs => simp [extractFiles, hg2, he]

/-- Witness for the amended C5: a span that is not a literal at all. -/
theorem claim5_witness :
    extractFiles "\x7bnot a dict\x7d" =
      [(PyVal.str "error.txt", PyVal.str (parseFailureText ++ "\x7bnot a dict\x7d"))] ∧
    ∃ pre, parseFailureText ++ "\x7bnot a dict\x7d" = pre ++ "\x7bnot a dict\x7d" :=
  claim5_parse_failure_error_artifact "\x7bnot a dict\x7d" (Or.inl rfl)

/-- Counterexample to C6 as stated: a response value whose literal
evaluation raises TypeError aborts the relevance filter instead of letting
it fall back to the full input path list. -/
theorem claim6_counterexample :
    llmFilterRelevantFiles [(PyVal.str "a", PyVal.str "\x7b[1]: 2\x7d")] ["keep.html"] =
      Except.error unhashableTypeMsg := rfl

/-- Claim C6 (amended): provided no response value's literal evaluation
raises TypeError, the filter returns the first value that evaluates to a
list, and the full input path list when no value does. -/
theorem claim6_first_list_or_fallback (d : List (PyVal × PyVal)) (fl : List String)
    (h : ∀ kv ∈ d, valueTypeErrs kv.2 = false) :
    llmFilterRelevantFiles d fl =
      Except.ok ((d.findSome? (fun kv => valueAsList kv.2)).getD (fl.map PyVal.str)) := by
  induction d with
  | nil => simp [llmFilterRelevantFiles]
  | cons kv rest ih =>
    obtain ⟨k, v⟩ := kv
    have hv : valueTypeErrs v = false := h (k, v) (List.mem_cons_self _ _)
    have hrest : ∀ kv ∈ rest, valueTypeErrs kv.2 = false :=
      fun kv hkv => h kv (List.mem_cons_of_mem _ hkv)
    cases v with
    | str s =>
      cases he : literalEvalOutcome s with
      | ok w =>
        cases w with
        | list xs => simp [llmFilterRelevantFiles, valueAsList, he]
        | str s2 => simp [llmFilterRelevantFiles, valueAsList, he, ih hrest]
        | int n => simp [llmFilterRelevantFiles, valueAsList, he, ih hrest]
        | bool b => simp [llmFilterRelevantFiles, valueAsList, he, ih hrest]
        | none => simp [llmFilterRelevantFiles, valueAsList, he, ih hrest]
        | dict kvs => simp [llmFilterRelevantFiles, valueAsList, he, ih hrest]
      | err => simp [llmFilterRelevantFiles, valueAsList, he, ih hrest]
      | typeErr =>
        exfalso
        simp [valueTypeErrs, he] at hv
    | int n => simp [llmFilterRelevantFiles, valueAsList, ih hrest]
    | bool b => simp [llmFilterRelevantFiles, valueAsList, ih hrest]
    | none => simp [llmFilterRelevantFiles, valueAsList, ih hrest]
    | list xs => simp [llmFilterRelevantFiles, valueAsList, ih hrest]
    | dict kvs => simp [llmFilterRelevantFiles, valueAsList, ih hrest]

/-- Witness for the amended C6: the first value is not a list, the second
is, so the second is returned. -/
theorem claim6_witness :
    llmFilterRelevantFiles
        [(PyVal.str "files", PyVal.str "no list here"), (PyVal.str "k", PyVal.str "[\"index.html\"]")]
        ["a.txt"] =
      Except.ok
        (([(PyVal.str "files", PyVal.str "no list here"),
           (PyVal.str "k", PyVal.str "[\"index.html\"]")].findSome?
            (fun kv => valueAsList kv.2)).getD (["a.txt"].map PyVal.str)) :=
  claim6_first_list_or_fallback _ _ (by decide)

/-- Counterexample to C7 as stated: with a failing (status 500) Pages
setup, the round-1 task still completes successfully and still notifies the
evaluation sink. -/
theorem claim7_counterexample :
    ¬ (500 = 201 ∨ 500 = 204) ∧
    (handleTask 1 201 500 200 [("index.html", Content.text "hello")] []
      { files := [], nextSha := 1 }).outcome = Except.ok 1 ∧
    (handleTask 1 201 500 200 [("index.html", Content.text "hello")] []
      { files := [], nextSha := 1 }).notified = true :=
  ⟨by decide, rfl, rfl⟩

/-- Claim C7 (amended): the status of the round-1 hosting-setup call is
immaterial to the task's result; the handler only prints a warning on a
non-success status. -/
theorem claim7_pages_status_immaterial (cs es : Nat) (gf : List (String × Content))
    (atts : List Attachment) (st : Store) (ps ps2 : Nat) :
    handleTask 1 cs ps es gf atts st = handleTask 1 cs ps2 es gf atts st := rfl

/-- Claim C8: when the round's write loop performed no write (the file set
to publish is empty), handle_task surfaces an error and the evaluation sink
is not notified. -/
theorem claim8_no_sha_aborts (round : Int) (cs ps es : Nat) (gf : List (String × Content))
    (atts : List Attachment) (st : Store)
    (hr : (round = 1 ∧ cs = 201) ∨ (1 < round ∧ st.files ≠ []))
    (hov : overlayAttachments gf atts = Except.ok []) :
    (handleTask round cs ps es gf atts st).outcome =
      Except.error "Failed to retrieve a valid commit SHA." ∧
    (handleTask round cs ps es gf atts st).notified = false := by
  rcases hr with ⟨hr1, hcs⟩ | ⟨hgt, hne⟩
  · subst hr1
    subst hcs
    refine ⟨?_, ?_⟩ <;> simp [handleTask, handleRound1, hov, publishAll]
  · have hne1 : ¬ round = 1 := by omega
    have hempty : st.files.isEmpty = false := by
      cases hf : st.files with
      | nil => exact absurd hf hne
      | cons a l => rfl
    refine ⟨?_, ?_⟩ <;> simp [handleTask, handleRound2, hne1, hgt, hempty, hov, publishAll]

/-- Witness for C8: a round-1 task whose generator returned no files and
which has no attachments. -/
theorem claim8_witness :
    (handleTask 1 201 201 200 [] [] { files := [], nextSha := 1 }).outcome =
      Except.error "Failed to retrieve a valid commit SHA." ∧
    (handleTask 1 201 201 200 [] [] { files := [], nextSha := 1 }).notified = false :=
  claim8_no_sha_aborts 1 201 201 200 [] [] _ (Or.inl ⟨rfl, rfl⟩) rfl

/-- Counterexample to C9 as stated: the intake endpoint's HTTP response
does depend on the outcome of handle_task — a failing task yields a
different response than a successful one. -/
theorem claim9_counterexample :
    receiveTask "s3cret" "s3cret" (Except.error "boom") ≠
      receiveTask "s3cret" "s3cret" (Except.ok ()) := by decide

/-- Claim C9 (amended): the endpoint answers 200 with its acknowledgement
exactly when the secret matched and the awaited handle_task run succeeded;
a handler exception is mapped to a 500 response, so the caller does learn
the outcome from the HTTP response. -/
theorem claim9_status_reflects_outcome (secret expected : String) (o : Except String Unit) :
    (receiveTask secret expected o).status = 200 ↔ secret = expected ∧ o = Except.ok () := by
  by_cases h : secret = expected
  · subst h
    cases o with
    | ok u =>
      cases u
      simp [receiveTask]
    | error e => simp [receiveTask]
  · simp [receiveTask, h]

/-- Claim C10: a later round whose remote snapshot is empty aborts with the
dedicated error, whatever the generator oracle and attachments would have
produced — so no model call can influence the result and the round-1
synthesis path is never taken. -/
theorem claim10_empty_snapshot_aborts (gf : List (String × Content)) (atts : List Attachment)
    (st : Store) (h : st.files = []) :
    handleRound2 gf atts st = Except.error "Could not retrieve existing files to modify." := by
  simp [handleRound2, h]

/-- Witness for C10: an empty snapshot with a nonempty would-be update. -/
theorem claim10_witness :
    handleRound2 [("index.html", Content.text "x")] [{ name := "n", url := "u" }]
      { files := [], nextSha := 5 } =
      Except.error "Could not retrieve existing files to modify." :=
  claim10_empty_snapshot_aborts _ _ _ rfl

end TdsApp
